import Mathlib

/-!
Shallow embedding of the QuickServe booking-lifecycle subsystem.

The definitions below are translated from the TypeScript route handlers:
  * `patchBookingStatus`  — PATCH /api/v1/bookings/:id/status
                            (src/apps/api-public/src/modules/bookings/bookings.routes.ts)
  * `acceptBooking`       — POST /api/v1/bookings/:id/accept (same file)
  * `adminCancelBooking`  — POST /api/v1/admin/bookings/:id/cancel
  * `createBooking`       — POST /api/v1/bookings
  * `initiatePayment`     — POST /api/v1/payments/initiate
                            (src/apps/api-public/src/modules/payments/payments.routes.ts)

The Prisma tables the handlers touch are modelled as lists of records inside
a `DB` structure; `findUnique` / `findFirst` become `List.find?`, `update`
becomes a map over the list keyed on the id, `create` appends.  Timestamps
(`new Date()`) are passed in as an explicit `now : Nat`.  JavaScript
truthiness tests on nullable numbers (`if (data.finalPrice)`,
`finalPrice || estimatedPrice`) are modelled by `truthyNum`.
Side effects that do not touch the booking/payment tables (socket emits,
notification rows, conversation rows) are outside every claim and are not
modelled.
-/

deriving instance DecidableEq for Except

namespace QuickServe

inductive BookingStatus
  | PENDING
  | ACCEPTED
  | WORKER_EN_ROUTE
  | IN_PROGRESS
  | COMPLETED
  | CANCELLED
deriving DecidableEq

inductive VerificationStatus
  | PENDING
  | VERIFIED
  | REJECTED
deriving DecidableEq

inductive UserRole
  | CUSTOMER
  | WORKER
  | ADMIN
deriving DecidableEq

inductive PaymentMethod
  | MTN_MOMO
  | VODAFONE_CASH
  | CASH
deriving DecidableEq

inductive PaymentStatus
  | PROCESSING
  | COMPLETED
  | FAILED
deriving DecidableEq

/-- The authenticated requester (`req.user` set by the auth middleware). -/
structure AuthUser where
  id : Nat
  role : UserRole
deriving DecidableEq

/-- Worker profile row. -/
structure Worker where
  id : Nat
  userId : Nat
  verificationStatus : VerificationStatus
deriving DecidableEq

/-- WorkerService row: a service offering (worker, category, active flag, price). -/
structure WorkerService where
  workerId : Nat
  categoryId : Nat
  isActive : Bool
  basePrice : Int
deriving DecidableEq

/-- Booking row. -/
structure Booking where
  id : Nat
  customerId : Nat
  workerId : Option Nat
  categoryId : Nat
  description : String
  latitude : Int
  longitude : Int
  address : String
  status : BookingStatus
  estimatedPrice : Option Int
  finalPrice : Option Int
  scheduledAt : Option Nat
  startedAt : Option Nat
  completedAt : Option Nat
  createdAt : Nat
deriving DecidableEq

/-- Payment row (one per booking at most). -/
structure Payment where
  bookingId : Nat
  amount : Int
  method : PaymentMethod
  status : PaymentStatus
  paidAt : Option Nat
deriving DecidableEq

/-- The slice of the database the modelled handlers read and write. -/
structure DB where
  bookings : List Booking
  workers : List Worker
  workerServices : List WorkerService
  payments : List Payment
  categories : List Nat
deriving DecidableEq

/-- Error taxonomy: one constructor per distinct `AppError` thrown by the
modelled handlers, plus `validation` for a zod schema rejection. -/
inductive ApiError
  | validation
  | notFound
  | invalidWorker
  | invalidStatusTransition (cur tgt : BookingStatus)
  | forbidden
  | notWorker
  | notVerified
  | notAvailable
  | serviceNotOffered
  | notCompleted
  | alreadyPaid
  | noPrice
  | phoneRequired
deriving DecidableEq

/-- JS truthiness of a nullable number: `null`/`undefined` and `0` are falsy. -/
def truthyNum : Option Int → Bool
  | none => false
  | some n => n != 0

/-- JS `a || b` on nullable numbers. -/
def jsOrNum (a b : Option Int) : Option Int :=
  if truthyNum a then a else b

/-- `prisma.booking.findUnique({ where: { id } })`. -/
def findBooking (db : DB) (bid : Nat) : Option Booking :=
  db.bookings.find? (fun b => b.id == bid)

/-- `prisma.worker.findUnique({ where: { id } })`. -/
def findWorkerById (db : DB) (wid : Nat) : Option Worker :=
  db.workers.find? (fun w => w.id == wid)

/-- `prisma.worker.findUnique({ where: { userId } })`. -/
def findWorkerByUserId (db : DB) (uid : Nat) : Option Worker :=
  db.workers.find? (fun w => w.userId == uid)

/-- `prisma.payment.findUnique({ where: { bookingId } })` (the one-to-one
`payment` relation included on a booking). -/
def findPayment (db : DB) (bid : Nat) : Option Payment :=
  db.payments.find? (fun p => p.bookingId == bid)

/-- `prisma.workerService.findFirst({ where: { workerId, categoryId, isActive: true } })`
as used by the accept handler. -/
def findActiveService (db : DB) (wid cid : Nat) : Option WorkerService :=
  db.workerServices.find? (fun s => s.workerId == wid && s.categoryId == cid && s.isActive)

/-- `prisma.workerService.findFirst({ where: { worker: { id, verificationStatus: VERIFIED },
categoryId, isActive: true } })` as used by the create handler. -/
def findVerifiedService (db : DB) (wid cid : Nat) : Option WorkerService :=
  db.workerServices.find? (fun s =>
    s.workerId == wid && s.categoryId == cid && s.isActive &&
      (match findWorkerById db wid with
       | some w => w.verificationStatus == VerificationStatus.VERIFIED
       | none => false))

/-- `prisma.booking.update({ where: { id }, data })`: rewrite the row with the
matching id by `f`, leaving every other row alone. -/
def setBooking (db : DB) (bid : Nat) (f : Booking → Booking) : DB :=
  { db with bookings := db.bookings.map (fun b => if b.id == bid then f b else b) }

/-- The `worker` relation included on a booking (`include: { worker: true }`). -/
def bookingWorker (db : DB) (b : Booking) : Option Worker :=
  match b.workerId with
  | some wid => findWorkerById db wid
  | none => none

/-- `booking.worker?.userId === req.user!.id`. -/
def isAssignedWorker (db : DB) (b : Booking) (u : AuthUser) : Bool :=
  match bookingWorker db b with
  | some w => w.userId == u.id
  | none => false

/-- The `validTransitions` record literal in the PATCH /:id/status handler. -/
def validTransitions : BookingStatus → Option (List BookingStatus)
  | BookingStatus.PENDING =>
      some [BookingStatus.ACCEPTED, BookingStatus.CANCELLED]
  | BookingStatus.ACCEPTED =>
      some [BookingStatus.WORKER_EN_ROUTE, BookingStatus.CANCELLED]
  | BookingStatus.WORKER_EN_ROUTE =>
      some [BookingStatus.IN_PROGRESS, BookingStatus.CANCELLED]
  | BookingStatus.IN_PROGRESS =>
      some [BookingStatus.COMPLETED, BookingStatus.CANCELLED]
  | BookingStatus.COMPLETED => none
  | BookingStatus.CANCELLED => none

/-- `validTransitions[booking.status]?.includes(data.status)`. -/
def transitionAllowed (cur tgt : BookingStatus) : Bool :=
  match validTransitions cur with
  | some allowed => allowed.contains tgt
  | none => false

/-- Body of PATCH /:id/status after zod parsing.  The wire value of `status`
is one of the six booking statuses; `updateBookingStatusSchema` only admits
five of them (PENDING is not in the `z.enum`). -/
structure UpdateStatusRequest where
  status : BookingStatus
  finalPrice : Option Int
deriving DecidableEq

/-- `updateBookingStatusSchema.parse`: status must be one of the five
enumerated targets (not PENDING) and finalPrice, when present, must be
positive (`z.number().positive().optional()`). -/
def parseUpdateStatus (r : UpdateStatusRequest) : Except ApiError UpdateStatusRequest :=
  if r.status = BookingStatus.PENDING then Except.error ApiError.validation
  else
    match r.finalPrice with
    | some p => if 0 < p then Except.ok r else Except.error ApiError.validation
    | none => Except.ok r

/-- The permission checks of the PATCH handler:
`CANCELLED` needs `isWorker || isCustomer`; anything else needs `isWorker`. -/
def patchPermitted (tgt : BookingStatus) (isWorker isCustomer : Bool) : Bool :=
  if tgt = BookingStatus.CANCELLED then isWorker || isCustomer else isWorker

/-- The `updateData` object of the PATCH handler applied to a booking row:
always sets `status`; sets `workerId` when the claim branch produced one;
sets `startedAt = now` on IN_PROGRESS; on COMPLETED sets `completedAt = now`
and, if `data.finalPrice` is truthy, `finalPrice`. -/
def applyPatch (data : UpdateStatusRequest) (newWorkerId : Option Nat) (now : Nat)
    (b : Booking) : Booking :=
  { b with
    status := data.status
    workerId := match newWorkerId with
      | some wid => some wid
      | none => b.workerId
    startedAt :=
      if data.status = BookingStatus.IN_PROGRESS then some now else b.startedAt
    completedAt :=
      if data.status = BookingStatus.COMPLETED then some now else b.completedAt
    finalPrice :=
      if data.status = BookingStatus.COMPLETED && truthyNum data.finalPrice then
        data.finalPrice
      else b.finalPrice }

/-- PATCH /api/v1/bookings/:id/status. -/
def patchBookingStatus (db : DB) (user : AuthUser) (bid : Nat)
    (req : UpdateStatusRequest) (now : Nat) : DB × Except ApiError Booking :=
  match parseUpdateStatus req with
  | Except.error e => (db, Except.error e)
  | Except.ok data =>
    match findBooking db bid with
    | none => (db, Except.error ApiError.notFound)
    | some booking =>
      if !(transitionAllowed booking.status data.status) then
        (db, Except.error (ApiError.invalidStatusTransition booking.status data.status))
      else if !(patchPermitted data.status (isAssignedWorker db booking user)
                  (booking.customerId == user.id)) then
        (db, Except.error ApiError.forbidden)
      else if data.status = BookingStatus.ACCEPTED ∧ booking.workerId = none then
        match findWorkerByUserId db user.id with
        | none => (db, Except.error ApiError.notWorker)
        | some w =>
          (setBooking db booking.id (applyPatch data (some w.id) now),
           Except.ok (applyPatch data (some w.id) now booking))
      else
        (setBooking db booking.id (applyPatch data none now),
         Except.ok (applyPatch data none now booking))

/-- The data the accept handler has in hand after its three reads and four
checks, just before its unconditional `prisma.booking.update`. -/
structure AcceptPlan where
  booking : Booking
  workerRowId : Nat
  basePrice : Int
deriving DecidableEq

/-- The read-and-validate half of POST /:id/accept: the `authorize('WORKER')`
middleware, the worker lookup and verification check, the booking lookup, the
`status !== 'PENDING'` check and the service lookup.  Every `await` between
these reads and the final write is a yield point of the event loop, so two
requests can both complete this phase before either one writes. -/
def acceptReadPhase (db : DB) (user : AuthUser) (bid : Nat) : Except ApiError AcceptPlan :=
  if user.role ≠ UserRole.WORKER then Except.error ApiError.forbidden
  else
    match findWorkerByUserId db user.id with
    | none => Except.error ApiError.notVerified
    | some worker =>
      if worker.verificationStatus ≠ VerificationStatus.VERIFIED then
        Except.error ApiError.notVerified
      else
        match findBooking db bid with
        | none => Except.error ApiError.notFound
        | some booking =>
          if booking.status ≠ BookingStatus.PENDING then Except.error ApiError.notAvailable
          else
            match findActiveService db worker.id booking.categoryId with
            | none => Except.error ApiError.serviceNotOffered
            | some ws =>
              Except.ok { booking := booking, workerRowId := worker.id, basePrice := ws.basePrice }

/-- The `data` object of the accept handler's `prisma.booking.update`. -/
def applyAccept (plan : AcceptPlan) (b : Booking) : Booking :=
  { b with
    workerId := some plan.workerRowId
    status := BookingStatus.ACCEPTED
    estimatedPrice := some plan.basePrice }

/-- The write half of POST /:id/accept: an update keyed on the id alone —
no condition on the current status or on `workerId IS NULL`. -/
def acceptWritePhase (db : DB) (plan : AcceptPlan) : DB :=
  setBooking db plan.booking.id (applyAccept plan)

/-- POST /api/v1/bookings/:id/accept run without interleaving. -/
def acceptBooking (db : DB) (user : AuthUser) (bid : Nat) : DB × Except ApiError Booking :=
  match acceptReadPhase db user bid with
  | Except.error e => (db, Except.error e)
  | Except.ok plan => (acceptWritePhase db plan, Except.ok (applyAccept plan plan.booking))

/-- The `data` object of the admin cancel handler's update. -/
def applyAdminCancel (b : Booking) : Booking :=
  { b with status := BookingStatus.CANCELLED }

/-- POST /api/v1/admin/bookings/:id/cancel: an unconditional
`prisma.booking.update({ data: { status: 'CANCELLED' } })` (a missing row
makes the ORM throw, modelled as `notFound`). -/
def adminCancelBooking (db : DB) (bid : Nat) : DB × Except ApiError Booking :=
  match findBooking db bid with
  | none => (db, Except.error ApiError.notFound)
  | some booking =>
      (setBooking db bid applyAdminCancel, Except.ok (applyAdminCancel booking))

/-- Body of POST /api/v1/bookings after zod parsing. -/
structure CreateBookingRequest where
  categoryId : Nat
  workerId : Option Nat
  description : String
  latitude : Int
  longitude : Int
  address : String
  scheduledAt : Option Nat
deriving DecidableEq

/-- `createBookingSchema.parse`: description 10..1000 chars, latitude in
[-90, 90], longitude in [-180, 180], address 5..500 chars. -/
def parseCreateBooking (r : CreateBookingRequest) : Except ApiError CreateBookingRequest :=
  if 10 ≤ r.description.length ∧ r.description.length ≤ 1000
      ∧ -90 ≤ r.latitude ∧ r.latitude ≤ 90
      ∧ -180 ≤ r.longitude ∧ r.longitude ≤ 180
      ∧ 5 ≤ r.address.length ∧ r.address.length ≤ 500 then
    Except.ok r
  else Except.error ApiError.validation

/-- The row handed to `prisma.booking.create` by the create handler; the
source literally writes `status: data.workerId ? 'PENDING' : 'PENDING'`. -/
def newBookingRow (user : AuthUser) (data : CreateBookingRequest)
    (estPrice : Option Int) (newId now : Nat) : Booking :=
  { id := newId
    customerId := user.id
    workerId := data.workerId
    categoryId := data.categoryId
    description := data.description
    latitude := data.latitude
    longitude := data.longitude
    address := data.address
    status := match data.workerId with
      | some _ => BookingStatus.PENDING
      | none => BookingStatus.PENDING
    estimatedPrice := estPrice
    finalPrice := none
    scheduledAt := data.scheduledAt
    startedAt := none
    completedAt := none
    createdAt := now }

/-- The `prisma.booking.create` call of the create handler. -/
def createBookingRow (db : DB) (user : AuthUser) (data : CreateBookingRequest)
    (estPrice : Option Int) (newId now : Nat) : DB × Except ApiError Booking :=
  ({ db with bookings := db.bookings ++ [newBookingRow user data estPrice newId now] },
   Except.ok (newBookingRow user data estPrice newId now))

/-- POST /api/v1/bookings: create a booking.  `newId` is the fresh row id the
ORM generates and `now` the creation timestamp. -/
def createBooking (db : DB) (user : AuthUser) (req : CreateBookingRequest)
    (newId now : Nat) : DB × Except ApiError Booking :=
  match parseCreateBooking req with
  | Except.error e => (db, Except.error e)
  | Except.ok data =>
    if !(db.categories.contains data.categoryId) then (db, Except.error ApiError.notFound)
    else
      match data.workerId with
      | some wid =>
        match findVerifiedService db wid data.categoryId with
        | none => (db, Except.error ApiError.invalidWorker)
        | some ws => createBookingRow db user data (some ws.basePrice) newId now
      | none => createBookingRow db user data none newId now

/-- Body of POST /api/v1/payments/initiate after zod parsing. -/
structure InitiatePaymentRequest where
  bookingId : Nat
  method : PaymentMethod
  phone : Option String
deriving DecidableEq

/-- Rewrite the payment row keyed on `bid` by `f`. -/
def mapPayments (db : DB) (bid : Nat) (f : Payment → Payment) : DB :=
  { db with payments := db.payments.map (fun q => if q.bookingId == bid then f q else q) }

/-- Append a payment row. -/
def pushPayment (db : DB) (p : Payment) : DB :=
  { db with payments := db.payments ++ [p] }

/-- `prisma.payment.upsert({ where: { bookingId }, create: {...}, update: {...} })`:
the update clause rewrites method, status and paidAt of an existing row (its
amount stays); the create clause inserts a fresh row with the given amount.
Returns the resulting row alongside the new table. -/
def upsertPayment (db : DB) (bid : Nat) (amt : Int) (m : PaymentMethod)
    (st : PaymentStatus) (paid : Option Nat) : DB × Payment :=
  match findPayment db bid with
  | some old =>
    (mapPayments db bid (fun q => { q with method := m, status := st, paidAt := paid }),
     { old with method := m, status := st, paidAt := paid })
  | none =>
    let p : Payment := { bookingId := bid, amount := amt, method := m, status := st, paidAt := paid }
    (pushPayment db p, p)

/-- POST /api/v1/payments/initiate.  Note the phone-number check for mobile
money happens after the upsert in the source, so that error path still leaves
the upserted row behind — hence the handler returns the database in both
outcomes. -/
def initiatePayment (db : DB) (user : AuthUser) (req : InitiatePaymentRequest)
    (now : Nat) : DB × Except ApiError Payment :=
  match findBooking db req.bookingId with
  | none => (db, Except.error ApiError.notFound)
  | some booking =>
    if booking.customerId ≠ user.id then (db, Except.error ApiError.forbidden)
    else if booking.status ≠ BookingStatus.COMPLETED then
      (db, Except.error ApiError.notCompleted)
    else if (match findPayment db booking.id with
             | some p => p.status == PaymentStatus.COMPLETED
             | none => false) then
      (db, Except.error ApiError.alreadyPaid)
    else
      match jsOrNum booking.finalPrice booking.estimatedPrice with
      | none => (db, Except.error ApiError.noPrice)
      | some amt =>
        if amt = 0 then (db, Except.error ApiError.noPrice)
        else
          let st := if req.method = PaymentMethod.CASH
                    then PaymentStatus.COMPLETED else PaymentStatus.PROCESSING
          let paid := if req.method = PaymentMethod.CASH then some now else none
          let res := upsertPayment db booking.id amt req.method st paid
          if req.method = PaymentMethod.CASH then (res.1, Except.ok res.2)
          else
            match req.phone with
            | none => (res.1, Except.error ApiError.phoneRequired)
            | some _ => (res.1, Except.ok res.2)

/-- One invocation of any of the modelled endpoints. -/
inductive Op
  | create (user : AuthUser) (req : CreateBookingRequest) (newId now : Nat)
  | patchStatus (user : AuthUser) (bid : Nat) (req : UpdateStatusRequest) (now : Nat)
  | accept (user : AuthUser) (bid : Nat)
  | adminCancel (bid : Nat)
  | payInitiate (user : AuthUser) (req : InitiatePaymentRequest) (now : Nat)
deriving DecidableEq

/-- The database after one endpoint invocation (error responses leave the
database as the handler left it). -/
def applyOp (db : DB) : Op → DB
  | Op.create u r i n => (createBooking db u r i n).1
  | Op.patchStatus u b r n => (patchBookingStatus db u b r n).1
  | Op.accept u b => (acceptBooking db u b).1
  | Op.adminCancel b => (adminCancelBooking db b).1
  | Op.payInitiate u r n => (initiatePayment db u r n).1

/-! ## Concrete fixtures used by counterexamples and witnesses -/

/-- A booking row for customer 5 in category 100 with the given id, worker
assignment and status. -/
def mkBooking (bid : Nat) (wid : Option Nat) (st : BookingStatus) : Booking :=
  { id := bid
    customerId := 5
    workerId := wid
    categoryId := 100
    description := "fix my kitchen sink"
    latitude := 5
    longitude := 0
    address := "12 High Street"
    status := st
    estimatedPrice := some 50
    finalPrice := none
    scheduledAt := none
    startedAt := none
    completedAt := none
    createdAt := 0 }

/-- Two verified workers (rows 1 and 2, user ids 10 and 20) offering
category 100, one unverified worker (row 3, user id 30). -/
def sampleWorkers : List Worker :=
  [ { id := 1, userId := 10, verificationStatus := VerificationStatus.VERIFIED }
  , { id := 2, userId := 20, verificationStatus := VerificationStatus.VERIFIED }
  , { id := 3, userId := 30, verificationStatus := VerificationStatus.PENDING } ]

def sampleServices : List WorkerService :=
  [ { workerId := 1, categoryId := 100, isActive := true, basePrice := 50 }
  , { workerId := 2, categoryId := 100, isActive := true, basePrice := 60 } ]

def customer5 : AuthUser := { id := 5, role := UserRole.CUSTOMER }

def workerUser10 : AuthUser := { id := 10, role := UserRole.WORKER }

def workerUser20 : AuthUser := { id := 20, role := UserRole.WORKER }

def adminUser99 : AuthUser := { id := 99, role := UserRole.ADMIN }

/-- A database with one booking in the given state. -/
def dbWith (b : Booking) : DB :=
  { bookings := [b]
    workers := sampleWorkers
    workerServices := sampleServices
    payments := []
    categories := [100] }

/-- Invariant on reachable databases: a booking record visible through
`findBooking` with no assigned worker is either still PENDING or was
cancelled before being claimed. -/
def nullWorkerInv (db : DB) : Prop :=
  ∀ b ∈ db.bookings, findBooking db b.id = some b → b.workerId = none →
    b.status = BookingStatus.PENDING ∨ b.status = BookingStatus.CANCELLED

/-! ## Named fixture databases -/

def bookingOpen : Booking := mkBooking 1 none BookingStatus.PENDING

def bookingPreassigned : Booking := mkBooking 1 (some 1) BookingStatus.PENDING

def bookingAccepted : Booking := mkBooking 1 (some 1) BookingStatus.ACCEPTED

def bookingInProgress : Booking := mkBooking 1 (some 1) BookingStatus.IN_PROGRESS

def bookingCompleted : Booking := mkBooking 1 (some 1) BookingStatus.COMPLETED

def createReq : CreateBookingRequest :=
  { categoryId := 100
    workerId := some 1
    description := "fix my kitchen sink"
    latitude := 5
    longitude := 0
    address := "12 High Street"
    scheduledAt := none }

def cashReq : InitiatePaymentRequest :=
  { bookingId := 1, method := PaymentMethod.CASH, phone := none }

def cashPaymentRow : Payment :=
  { bookingId := 1
    amount := 50
    method := PaymentMethod.CASH
    status := PaymentStatus.COMPLETED
    paidAt := some 42 }

def planW2 : AcceptPlan :=
  { booking := bookingPreassigned, workerRowId := 2, basePrice := 60 }

def planOpenW1 : AcceptPlan :=
  { booking := bookingOpen, workerRowId := 1, basePrice := 50 }

def planOpenW2 : AcceptPlan :=
  { booking := bookingOpen, workerRowId := 2, basePrice := 60 }

/-! ## Infrastructure lemmas about the table model -/

theorem findBooking_some_id {db : DB} {bid : Nat} {b : Booking}
    (h : findBooking db bid = some b) : b.id = bid := by
  unfold findBooking at h
  have h2 := List.find?_some h
  simpa using h2

theorem findBooking_setBooking (db : DB) (i j : Nat) (f : Booking → Booking)
    (hf : ∀ b, (f b).id = b.id) :
    findBooking (setBooking db i f) j
      = (findBooking db j).map (fun b => if b.id == i then f b else b) := by
  unfold findBooking setBooking
  rw [List.find?_map]
  have hpred : ((fun b => b.id == j) ∘ fun b => if (b.id == i) = true then f b else b)
      = (fun b : Booking => b.id == j) := by
    funext b
    by_cases h : b.id = i <;> simp [Function.comp, h, hf]
  rw [hpred]

theorem findBooking_setBooking_self {db : DB} {i : Nat} {b : Booking}
    {f : Booking → Booking} (hf : ∀ b, (f b).id = b.id)
    (h : findBooking db i = some b) :
    findBooking (setBooking db i f) i = some (f b) := by
  rw [findBooking_setBooking db i i f hf, h]
  simp [findBooking_some_id h]

theorem findBooking_setBooking_ne {db : DB} {i j : Nat}
    {f : Booking → Booking} (hf : ∀ b, (f b).id = b.id) (hij : j ≠ i) :
    findBooking (setBooking db i f) j = findBooking db j := by
  rw [findBooking_setBooking db i j f hf]
  cases hfind : findBooking db j with
  | none => rfl
  | some b =>
    have hb := findBooking_some_id hfind
    simp [hb, hij]

theorem applyPatch_id (data : UpdateStatusRequest) (nw : Option Nat) (now : Nat)
    (b : Booking) : (applyPatch data nw now b).id = b.id := rfl

theorem applyAccept_id (plan : AcceptPlan) (b : Booking) :
    (applyAccept plan b).id = b.id := rfl

theorem applyAdminCancel_id (b : Booking) : (applyAdminCancel b).id = b.id := rfl

theorem bookings_upsertPayment (db : DB) (bid : Nat) (amt : Int)
    (m : PaymentMethod) (st : PaymentStatus) (paid : Option Nat) :
    (upsertPayment db bid amt m st paid).1.bookings = db.bookings := by
  unfold upsertPayment
  cases findPayment db bid <;> rfl

theorem bookings_initiatePayment (db : DB) (user : AuthUser)
    (req : InitiatePaymentRequest) (now : Nat) :
    (initiatePayment db user req now).1.bookings = db.bookings := by
  unfold initiatePayment
  split
  · rfl
  · split
    · rfl
    · split
      · rfl
      · split
        · rfl
        · split
          · rfl
          · split
            · rfl
            · split
              · exact bookings_upsertPayment ..
              · split <;> exact bookings_upsertPayment ..

theorem parseUpdateStatus_ok {r r2 : UpdateStatusRequest}
    (h : parseUpdateStatus r = Except.ok r2) :
    r2 = r ∧ r.status ≠ BookingStatus.PENDING ∧ ∀ p, r.finalPrice = some p → 0 < p := by
  unfold parseUpdateStatus at h
  split at h
  · cases h
  next hst =>
    cases hfp : r.finalPrice with
    | none =>
      simp only [hfp] at h
      refine ⟨(Except.ok.inj h).symm, hst, ?_⟩
      intro p hp
      cases hp
    | some q =>
      simp only [hfp] at h
      by_cases hq : 0 < q
      · rw [if_pos hq] at h
        refine ⟨(Except.ok.inj h).symm, hst, ?_⟩
        intro p hp
        injection hp with hpq
        exact hpq ▸ hq
      · rw [if_neg hq] at h
        cases h

theorem parseCreateBooking_ok {r r2 : CreateBookingRequest}
    (h : parseCreateBooking r = Except.ok r2) : r2 = r := by
  unfold parseCreateBooking at h
  split at h
  · exact (Except.ok.inj h).symm
  · cases h

/-! ## Shape lemmas: what each handler can do to the database -/

theorem patch_shape (db : DB) (u : AuthUser) (bid : Nat) (r : UpdateStatusRequest)
    (n : Nat) :
    (patchBookingStatus db u bid r n).1 = db
    ∨ ∃ data booking nw,
        parseUpdateStatus r = Except.ok data
        ∧ findBooking db bid = some booking
        ∧ transitionAllowed booking.status data.status = true
        ∧ patchPermitted data.status (isAssignedWorker db booking u)
            (booking.customerId == u.id) = true
        ∧ (nw = none ∨ (data.status = BookingStatus.ACCEPTED ∧ booking.workerId = none))
        ∧ (patchBookingStatus db u bid r n).1
            = setBooking db booking.id (applyPatch data nw n) := by
  cases hparse : parseUpdateStatus r with
  | error e => left; unfold patchBookingStatus; rw [hparse]
  | ok data =>
    cases hb : findBooking db bid with
    | none => left; unfold patchBookingStatus; rw [hparse]; simp only []; rw [hb]
    | some booking =>
      cases hpair : transitionAllowed booking.status data.status with
      | false =>
        left
        unfold patchBookingStatus
        rw [hparse]
        simp only []
        rw [hb]
        simp only []
        rw [if_pos (by simp [hpair])]
      | true =>
        cases hperm : patchPermitted data.status (isAssignedWorker db booking u)
            (booking.customerId == u.id) with
        | false =>
          left
          unfold patchBookingStatus
          rw [hparse]
          simp only []
          rw [hb]
          simp only []
          rw [if_neg (by simp [hpair]), if_pos (by simp [hperm])]
        | true =>
          by_cases hclaim : data.status = BookingStatus.ACCEPTED ∧ booking.workerId = none
          · cases hw : findWorkerByUserId db u.id with
            | none =>
              left
              unfold patchBookingStatus
              rw [hparse]
              simp only []
              rw [hb]
              simp only []
              rw [if_neg (by simp [hpair]), if_neg (by simp [hperm]), if_pos hclaim, hw]
            | some w =>
              right
              refine ⟨data, booking, some w.id, rfl, rfl, hpair, hperm, Or.inr hclaim, ?_⟩
              unfold patchBookingStatus
              rw [hparse]
              simp only []
              rw [hb]
              simp only []
              rw [if_neg (by simp [hpair]), if_neg (by simp [hperm]), if_pos hclaim, hw]
          · right
            refine ⟨data, booking, none, rfl, rfl, hpair, hperm, Or.inl rfl, ?_⟩
            unfold patchBookingStatus
            rw [hparse]
            simp only []
            rw [hb]
            simp only []
            rw [if_neg (by simp [hpair]), if_neg (by simp [hperm]), if_neg hclaim]

theorem acceptReadPhase_ok {db : DB} {u : AuthUser} {bid : Nat} {plan : AcceptPlan}
    (h : acceptReadPhase db u bid = Except.ok plan) :
    u.role = UserRole.WORKER
    ∧ ∃ w b ws,
        findWorkerByUserId db u.id = some w
        ∧ w.verificationStatus = VerificationStatus.VERIFIED
        ∧ findBooking db bid = some b
        ∧ b.status = BookingStatus.PENDING
        ∧ findActiveService db w.id b.categoryId = some ws
        ∧ plan = { booking := b, workerRowId := w.id, basePrice := ws.basePrice } := by
  unfold acceptReadPhase at h
  split at h
  · cases h
  next hrole =>
    split at h
    · cases h
    next w hw =>
      split at h
      · cases h
      next hver =>
        split at h
        · cases h
        next b hb =>
          split at h
          · cases h
          next hpend =>
            split at h
            · cases h
            next ws hws =>
              obtain rfl := Except.ok.inj h
              exact ⟨not_not.mp hrole, w, b, ws, hw, not_not.mp hver, hb,
                not_not.mp hpend, hws, rfl⟩

theorem accept_shape (db : DB) (u : AuthUser) (bid : Nat) :
    (acceptBooking db u bid).1 = db
    ∨ ∃ plan, acceptReadPhase db u bid = Except.ok plan
        ∧ (acceptBooking db u bid).1 = setBooking db plan.booking.id (applyAccept plan) := by
  unfold acceptBooking
  cases h : acceptReadPhase db u bid with
  | error e => left; rfl
  | ok plan => right; exact ⟨plan, rfl, rfl⟩

theorem adminCancel_shape (db : DB) (bid : Nat) :
    (adminCancelBooking db bid).1 = db
    ∨ ((findBooking db bid).isSome = true
        ∧ (adminCancelBooking db bid).1 = setBooking db bid applyAdminCancel) := by
  unfold adminCancelBooking
  cases h : findBooking db bid with
  | none => left; rfl
  | some b => right; exact ⟨rfl, rfl⟩

theorem newBookingRow_status (user : AuthUser) (data : CreateBookingRequest)
    (estPrice : Option Int) (newId now : Nat) :
    (newBookingRow user data estPrice newId now).status = BookingStatus.PENDING := by
  unfold newBookingRow
  cases data.workerId <;> rfl

theorem create_shape (db : DB) (u : AuthUser) (r : CreateBookingRequest)
    (newId now : Nat) :
    (createBooking db u r newId now).1 = db
    ∨ ∃ bk, bk.status = BookingStatus.PENDING
        ∧ bk.workerId = r.workerId
        ∧ (createBooking db u r newId now).1 = { db with bookings := db.bookings ++ [bk] } := by
  cases hparse : parseCreateBooking r with
  | error e => left; unfold createBooking; rw [hparse]
  | ok data =>
    obtain rfl := parseCreateBooking_ok hparse
    by_cases hcat : (!db.categories.contains data.categoryId) = true
    · left
      unfold createBooking
      rw [hparse]
      simp only []
      rw [if_pos hcat]
    · cases hwid : data.workerId with
      | some wid =>
        cases hsvc : findVerifiedService db wid data.categoryId with
        | none =>
          left
          unfold createBooking
          rw [hparse]
          simp only []
          rw [if_neg hcat, hwid]
          simp only []
          rw [hsvc]
        | some ws =>
          right
          refine ⟨newBookingRow u data (some ws.basePrice) newId now,
            newBookingRow_status u data (some ws.basePrice) newId now, hwid, ?_⟩
          unfold createBooking
          rw [hparse]
          simp only []
          rw [if_neg hcat, hwid]
          simp only []
          rw [hsvc]
          rfl
      | none =>
        right
        refine ⟨newBookingRow u data none newId now,
          newBookingRow_status u data none newId now, hwid, ?_⟩
        unfold createBooking
        rw [hparse]
        simp only []
        rw [if_neg hcat, hwid]
        rfl

/-! ## Payment table lemmas -/

theorem findPayment_some_id {db : DB} {bid : Nat} {p : Payment}
    (h : findPayment db bid = some p) : p.bookingId = bid := by
  unfold findPayment at h
  have h2 := List.find?_some h
  simpa using h2

theorem findPayment_payMap (db : DB) (bid j : Nat) (f : Payment → Payment)
    (hf : ∀ p, (f p).bookingId = p.bookingId) :
    findPayment (mapPayments db bid f) j
      = (findPayment db j).map (fun q => if q.bookingId == bid then f q else q) := by
  unfold findPayment mapPayments
  rw [List.find?_map]
  have hpred : ((fun q => q.bookingId == j)
        ∘ fun q => if (q.bookingId == bid) = true then f q else q)
      = (fun q : Payment => q.bookingId == j) := by
    funext q
    by_cases h : q.bookingId = bid <;> simp [Function.comp, h, hf]
  rw [hpred]

theorem upsertPayment_spec (db : DB) (bid : Nat) (amt : Int)
    (m : PaymentMethod) (st : PaymentStatus) (paid : Option Nat) :
    findPayment (upsertPayment db bid amt m st paid).1 bid
      = some (upsertPayment db bid amt m st paid).2
    ∧ (upsertPayment db bid amt m st paid).2.status = st
    ∧ (upsertPayment db bid amt m st paid).2.paidAt = paid
    ∧ (upsertPayment db bid amt m st paid).2.bookingId = bid := by
  unfold upsertPayment
  cases hold : findPayment db bid with
  | some old =>
    refine ⟨?_, rfl, rfl, ?_⟩
    · show findPayment (mapPayments db bid
          (fun q => { q with method := m, status := st, paidAt := paid })) bid
        = some { old with method := m, status := st, paidAt := paid }
      rw [findPayment_payMap db bid bid
        (fun q => { q with method := m, status := st, paidAt := paid }) (fun _ => rfl), hold]
      simp [findPayment_some_id hold]
    · show old.bookingId = bid
      exact findPayment_some_id hold
  | none =>
    refine ⟨?_, rfl, rfl, rfl⟩
    show findPayment (pushPayment db
        { bookingId := bid, amount := amt, method := m, status := st, paidAt := paid }) bid
      = some { bookingId := bid, amount := amt, method := m, status := st, paidAt := paid }
    unfold findPayment pushPayment
    unfold findPayment at hold
    simp only []
    rw [List.find?_append, hold]
    simp

/-! ## The workerId-nullability invariant (C5) -/

theorem nullWorkerInv_congr {db db2 : DB} (h : db2.bookings = db.bookings)
    (hinv : nullWorkerInv db) : nullWorkerInv db2 := by
  intro b hmem hfind hwid
  rw [h] at hmem
  unfold findBooking at hfind
  rw [h] at hfind
  exact hinv b hmem hfind hwid

theorem nullWorkerInv_setBooking {db : DB} {i : Nat} {f : Booking → Booking}
    (hf : ∀ x, (f x).id = x.id) (hinv : nullWorkerInv db)
    (hup : ∀ x, findBooking db i = some x → (f x).workerId = none →
        (f x).status = BookingStatus.PENDING ∨ (f x).status = BookingStatus.CANCELLED) :
    nullWorkerInv (setBooking db i f) := by
  intro b2 hmem hfind hwid
  have hid2 : findBooking (setBooking db i f) b2.id
      = (findBooking db b2.id).map (fun b => if b.id == i then f b else b) :=
    findBooking_setBooking db i b2.id f hf
  rw [hid2] at hfind
  cases horig : findBooking db b2.id with
  | none => rw [horig] at hfind; cases hfind
  | some bb =>
    rw [horig] at hfind
    rw [Option.map_some'] at hfind
    have hbbmem : bb ∈ db.bookings := by
      unfold findBooking at horig
      exact List.mem_of_find?_eq_some horig
    have hbbfind : findBooking db bb.id = some bb := by
      rw [findBooking_some_id horig]
      exact horig
    by_cases hbbi : bb.id = i
    · have hfb : f bb = b2 := by simpa [hbbi] using hfind
      have hi : findBooking db i = some bb := by
        rw [← hbbi]
        exact hbbfind
      have := hup bb hi (by rw [hfb]; exact hwid)
      rw [hfb] at this
      exact this
    · have hfb : bb = b2 := by simpa [hbbi] using hfind
      subst hfb
      exact hinv bb hbbmem hbbfind hwid

theorem nullWorkerInv_append {db : DB} {bk : Booking} (hinv : nullWorkerInv db)
    (hbk : bk.status = BookingStatus.PENDING ∨ bk.status = BookingStatus.CANCELLED) :
    nullWorkerInv { db with bookings := db.bookings ++ [bk] } := by
  intro b2 hmem hfind hwid
  unfold findBooking at hfind
  rw [List.find?_append] at hfind
  cases hfirst : List.find? (fun b => b.id == b2.id) db.bookings with
  | some bb =>
    rw [hfirst] at hfind
    have hbb : bb = b2 := Option.some.inj hfind
    subst hbb
    have hbbmem : bb ∈ db.bookings := List.mem_of_find?_eq_some hfirst
    exact hinv bb hbbmem hfirst hwid
  | none =>
    rw [hfirst] at hfind
    simp only [Option.none_or] at hfind
    cases hlast : List.find? (fun b => b.id == b2.id) [bk] with
    | none => rw [hlast] at hfind; cases hfind
    | some bb =>
      rw [hlast] at hfind
      have hbb : bb = b2 := Option.some.inj hfind
      have hmem2 : bb ∈ [bk] := List.mem_of_find?_eq_some hlast
      rw [List.mem_singleton] at hmem2
      rw [← hbb, hmem2]
      exact hbk

/-! ## Claims -/

/-- C1 (amended): for every existing booking and every pair (current status,
target status) whose target is one of the five statuses admitted by the
request schema (everything except PENDING; a PENDING target is rejected by
schema validation before the transition check) and that is not in the
transition table, the status-update handler fails with `InvalidTransition`
reporting both the current and the attempted status, and the database —
hence the booking's status — is unchanged. -/
theorem invalid_pair_fails_invalid_transition (db : DB) (user : AuthUser)
    (bid : Nat) (req : UpdateStatusRequest) (now : Nat) (b : Booking)
    (hparse : parseUpdateStatus req = Except.ok req)
    (hb : findBooking db bid = some b)
    (hpair : transitionAllowed b.status req.status = false) :
    patchBookingStatus db user bid req now
      = (db, Except.error (ApiError.invalidStatusTransition b.status req.status)) := by
  unfold patchBookingStatus
  rw [hparse]
  simp only []
  rw [hb]
  simp [hpair]

/-- Witness for C1: a booking in COMPLETED, target ACCEPTED — the pair is
not in the table and the handler reports both statuses, leaving the
database unchanged. -/
theorem invalid_pair_fails_invalid_transition_witness :
    parseUpdateStatus { status := BookingStatus.ACCEPTED, finalPrice := none }
      = Except.ok { status := BookingStatus.ACCEPTED, finalPrice := none }
    ∧ findBooking (dbWith bookingCompleted) 1 = some bookingCompleted
    ∧ transitionAllowed bookingCompleted.status BookingStatus.ACCEPTED = false
    ∧ patchBookingStatus (dbWith bookingCompleted) workerUser10 1
        { status := BookingStatus.ACCEPTED, finalPrice := none } 7
      = (dbWith bookingCompleted,
         Except.error (ApiError.invalidStatusTransition BookingStatus.COMPLETED
           BookingStatus.ACCEPTED)) :=
  ⟨by decide, by decide, by decide,
   invalid_pair_fails_invalid_transition (dbWith bookingCompleted) workerUser10 1
     { status := BookingStatus.ACCEPTED, finalPrice := none } 7 bookingCompleted
     (by decide) (by decide) (by decide)⟩

/-- Counterexample for C1 as frozen: for the pair (ACCEPTED, PENDING), which
is not in the transition table, the handler fails with the schema
`ValidationError` (PENDING is not in the request enum), not with
`InvalidTransition` reporting the two statuses. -/
theorem target_pending_rejected_by_schema :
    (patchBookingStatus (dbWith bookingAccepted) workerUser10 1
        { status := BookingStatus.PENDING, finalPrice := none } 7).2
      = Except.error ApiError.validation
    ∧ (Except.error ApiError.validation : Except ApiError Booking)
      ≠ Except.error (ApiError.invalidStatusTransition BookingStatus.ACCEPTED
          BookingStatus.PENDING) := by
  decide

/-- C7: `finalPrice` is persisted by the status-update handler only on a
transition into COMPLETED and only when positive: a non-positive supplied
finalPrice is rejected by schema validation (leaving the database
unchanged), a finalPrice supplied with any other target status is ignored
(the stored finalPrice is unchanged), and a positive finalPrice supplied on
a COMPLETED transition is persisted. -/
theorem final_price_discipline (db : DB) (user : AuthUser) (bid : Nat)
    (req : UpdateStatusRequest) (now : Nat) :
    (∀ p, req.finalPrice = some p → p ≤ 0 →
        patchBookingStatus db user bid req now = (db, Except.error ApiError.validation))
    ∧ (∀ b b2, findBooking db bid = some b →
        (patchBookingStatus db user bid req now).2 = Except.ok b2 →
        (req.status ≠ BookingStatus.COMPLETED → b2.finalPrice = b.finalPrice)
        ∧ (∀ p, req.status = BookingStatus.COMPLETED → req.finalPrice = some p →
            b2.finalPrice = some p)) := by
  constructor
  · intro p hp hple
    have hnpos : ¬ (0 < p) := by omega
    have hparse : parseUpdateStatus req = Except.error ApiError.validation := by
      unfold parseUpdateStatus
      rw [hp]
      split
      · rfl
      · simp [hnpos]
    unfold patchBookingStatus
    rw [hparse]
  · intro b b2 hb h
    unfold patchBookingStatus at h
    split at h
    · cases h
    next data hdata =>
      obtain ⟨rfl, hnp, hpos⟩ := parseUpdateStatus_ok hdata
      rw [hb] at h
      simp only [] at h
      split at h
      · cases h
      · split at h
        · cases h
        · have hgoal : ∀ nw,
              (Except.ok (applyPatch data nw now b) : Except ApiError Booking)
                = Except.ok b2 →
              (data.status ≠ BookingStatus.COMPLETED → b2.finalPrice = b.finalPrice)
              ∧ (∀ p, data.status = BookingStatus.COMPLETED → data.finalPrice = some p →
                  b2.finalPrice = some p) := by
            intro nw hok
            obtain rfl := Except.ok.inj hok
            constructor
            · intro hne
              simp [applyPatch, hne]
            · intro p hc hp
              have hpp := hpos p hp
              have hpz : p ≠ 0 := by omega
              simp [applyPatch, hc, hp, truthyNum, hpz]
          split at h
          · split at h
            · cases h
            next w hw => exact hgoal (some w.id) h
          · exact hgoal none h

/-- Witness for C7: a non-positive finalPrice is rejected by validation
(part 1 applied at -5), and on a genuine IN_PROGRESS → COMPLETED transition
a positive finalPrice 55 is persisted (part 2). -/
theorem final_price_discipline_witness :
    ({ status := BookingStatus.COMPLETED, finalPrice := some (-5) }
        : UpdateStatusRequest).finalPrice = some (-5)
    ∧ ((-5 : Int) ≤ 0)
    ∧ patchBookingStatus (dbWith bookingInProgress) workerUser10 1
        { status := BookingStatus.COMPLETED, finalPrice := some (-5) } 7
      = (dbWith bookingInProgress, Except.error ApiError.validation)
    ∧ (∀ b b2, findBooking (dbWith bookingInProgress) 1 = some b →
        (patchBookingStatus (dbWith bookingInProgress) workerUser10 1
          { status := BookingStatus.COMPLETED, finalPrice := some 55 } 7).2 = Except.ok b2 →
        (∀ p, BookingStatus.COMPLETED = BookingStatus.COMPLETED →
            some (55 : Int) = some p → b2.finalPrice = some p)) :=
  ⟨rfl, by decide,
   (final_price_discipline (dbWith bookingInProgress) workerUser10 1
     { status := BookingStatus.COMPLETED, finalPrice := some (-5) } 7).1 (-5) rfl (by decide),
   fun b b2 hb h =>
     ((final_price_discipline (dbWith bookingInProgress) workerUser10 1
       { status := BookingStatus.COMPLETED, finalPrice := some 55 } 7).2 b b2 hb h).2⟩

/-- C9: every booking created through the create-booking endpoint starts in
status PENDING, and when the request supplies a workerId the booking is
created already assigned to that worker while still PENDING. -/
theorem created_booking_pending (db : DB) (user : AuthUser) (req : CreateBookingRequest)
    (newId now : Nat) (b : Booking)
    (h : (createBooking db user req newId now).2 = Except.ok b) :
    b.status = BookingStatus.PENDING ∧ b.workerId = req.workerId := by
  unfold createBooking at h
  split at h
  · cases h
  next data hdata =>
    obtain rfl := parseCreateBooking_ok hdata
    split at h
    · cases h
    · split at h
      next wid hwid =>
        split at h
        · cases h
        next ws hws =>
          have hbk : (createBookingRow db user data (some ws.basePrice) newId now).2
              = Except.ok (newBookingRow user data (some ws.basePrice) newId now) := rfl
          rw [hbk] at h
          obtain rfl := Except.ok.inj h
          exact ⟨newBookingRow_status user data (some ws.basePrice) newId now, rfl⟩
      next hwid =>
        have hbk : (createBookingRow db user data none newId now).2
            = Except.ok (newBookingRow user data none newId now) := rfl
        rw [hbk] at h
        obtain rfl := Except.ok.inj h
        exact ⟨newBookingRow_status user data none newId now, rfl⟩

/-- Witness for C9: customer 5 creates a booking for category 100 naming
worker 1; the created booking is assigned to worker 1 and still PENDING. -/
theorem created_booking_pending_witness :
    (createBooking (dbWith bookingCompleted) customer5 createReq 9 3).2
      = Except.ok (newBookingRow customer5 createReq (some 50) 9 3)
    ∧ (newBookingRow customer5 createReq (some 50) 9 3).status = BookingStatus.PENDING
    ∧ (newBookingRow customer5 createReq (some 50) 9 3).workerId = createReq.workerId :=
  ⟨by decide,
   (created_booking_pending (dbWith bookingCompleted) customer5 createReq 9 3
     (newBookingRow customer5 createReq (some 50) 9 3) (by decide)).1,
   (created_booking_pending (dbWith bookingCompleted) customer5 createReq 9 3
     (newBookingRow customer5 createReq (some 50) 9 3) (by decide)).2⟩

/-- C10: a successful status update modifies only the fields status,
workerId, startedAt, completedAt and finalPrice of the booking; the fields
customerId, categoryId, description, geolocation (latitude/longitude),
address, estimatedPrice, scheduledAt and createdAt are unchanged. -/
theorem patch_updates_only_status_fields (db : DB) (user : AuthUser) (bid : Nat)
    (req : UpdateStatusRequest) (now : Nat) (b b2 : Booking)
    (hb : findBooking db bid = some b)
    (h : (patchBookingStatus db user bid req now).2 = Except.ok b2) :
    b2.customerId = b.customerId ∧ b2.categoryId = b.categoryId
    ∧ b2.description = b.description ∧ b2.latitude = b.latitude
    ∧ b2.longitude = b.longitude ∧ b2.address = b.address
    ∧ b2.estimatedPrice = b.estimatedPrice ∧ b2.scheduledAt = b.scheduledAt
    ∧ b2.createdAt = b.createdAt := by
  unfold patchBookingStatus at h
  split at h
  · cases h
  next data hdata =>
    rw [hb] at h
    simp only [] at h
    split at h
    · cases h
    · split at h
      · cases h
      · split at h
        · split at h
          · cases h
          next w hw =>
            obtain rfl := Except.ok.inj h
            simp [applyPatch]
        · obtain rfl := Except.ok.inj h
          simp [applyPatch]

/-- Witness for C10: worker 1 moves the accepted booking to
WORKER_EN_ROUTE; all non-lifecycle fields are unchanged. -/
theorem patch_updates_only_status_fields_witness :
    findBooking (dbWith bookingAccepted) 1 = some bookingAccepted
    ∧ (patchBookingStatus (dbWith bookingAccepted) workerUser10 1
        { status := BookingStatus.WORKER_EN_ROUTE, finalPrice := none } 7).2
      = Except.ok (applyPatch { status := BookingStatus.WORKER_EN_ROUTE, finalPrice := none }
          none 7 bookingAccepted)
    ∧ (applyPatch { status := BookingStatus.WORKER_EN_ROUTE, finalPrice := none }
          none 7 bookingAccepted).customerId = bookingAccepted.customerId :=
  ⟨by decide, by decide,
   (patch_updates_only_status_fields (dbWith bookingAccepted) workerUser10 1
     { status := BookingStatus.WORKER_EN_ROUTE, finalPrice := none } 7 bookingAccepted
     (applyPatch { status := BookingStatus.WORKER_EN_ROUTE, finalPrice := none }
       none 7 bookingAccepted) (by decide) (by decide)).1⟩

/-- C6 (amended): in the status-update handler a transition to CANCELLED
succeeds only when requested by the booking's customer or its assigned
worker, and every other transition succeeds only when requested by the
assigned worker; there is no admin bypass — any other actor (admins
included) fails with `Forbidden`.  `patchPermitted` is exactly this policy. -/
theorem patch_authorization (db : DB) (user : AuthUser) (bid : Nat)
    (req : UpdateStatusRequest) (now : Nat) :
    (∀ b b2, findBooking db bid = some b →
        (patchBookingStatus db user bid req now).2 = Except.ok b2 →
        patchPermitted req.status (isAssignedWorker db b user)
          (b.customerId == user.id) = true)
    ∧ (∀ b, findBooking db bid = some b →
        parseUpdateStatus req = Except.ok req →
        transitionAllowed b.status req.status = true →
        patchPermitted req.status (isAssignedWorker db b user)
          (b.customerId == user.id) = false →
        patchBookingStatus db user bid req now = (db, Except.error ApiError.forbidden)) := by
  constructor
  · intro b b2 hb h
    unfold patchBookingStatus at h
    split at h
    · cases h
    next data hdata =>
      obtain ⟨rfl, -, -⟩ := parseUpdateStatus_ok hdata
      rw [hb] at h
      simp only [] at h
      split at h
      · cases h
      · split at h
        · cases h
        next hperm =>
          simpa using hperm
  · intro b hb hparse hpair hperm
    unfold patchBookingStatus
    rw [hparse]
    simp only []
    rw [hb]
    simp [hpair, hperm]

/-- Witness for C6: the booking's own customer (user 5) requests the
table-valid non-cancellation transition ACCEPTED → WORKER_EN_ROUTE and is
rejected with `Forbidden`. -/
theorem patch_authorization_witness :
    findBooking (dbWith bookingAccepted) 1 = some bookingAccepted
    ∧ parseUpdateStatus { status := BookingStatus.WORKER_EN_ROUTE, finalPrice := none }
      = Except.ok { status := BookingStatus.WORKER_EN_ROUTE, finalPrice := none }
    ∧ transitionAllowed bookingAccepted.status BookingStatus.WORKER_EN_ROUTE = true
    ∧ patchPermitted BookingStatus.WORKER_EN_ROUTE
        (isAssignedWorker (dbWith bookingAccepted) bookingAccepted customer5)
        (bookingAccepted.customerId == customer5.id) = false
    ∧ patchBookingStatus (dbWith bookingAccepted) customer5 1
        { status := BookingStatus.WORKER_EN_ROUTE, finalPrice := none } 7
      = (dbWith bookingAccepted, Except.error ApiError.forbidden) :=
  ⟨by decide, by decide, by decide, by decide,
   (patch_authorization (dbWith bookingAccepted) customer5 1
     { status := BookingStatus.WORKER_EN_ROUTE, finalPrice := none } 7).2 bookingAccepted
     (by decide) (by decide) (by decide) (by decide)⟩

/-- Counterexample for C6 as frozen: an admin (neither the customer nor the
assigned worker) requests the table-valid transition ACCEPTED →
WORKER_EN_ROUTE and receives `Forbidden` — the claimed admin bypass of the
ownership check does not exist in the status-update handler. -/
theorem admin_gets_forbidden :
    adminUser99.role = UserRole.ADMIN
    ∧ transitionAllowed bookingAccepted.status BookingStatus.WORKER_EN_ROUTE = true
    ∧ patchBookingStatus (dbWith bookingAccepted) adminUser99 1
        { status := BookingStatus.WORKER_EN_ROUTE, finalPrice := none } 7
      = (dbWith bookingAccepted, Except.error ApiError.forbidden) := by
  decide

/-- C4: a claim of an unassigned PENDING booking succeeds only for a
VERIFIED worker with an active service offering in the booking's category:
the accept endpoint checks both, and through the status-update endpoint a
PENDING→ACCEPTED request on an unassigned booking never succeeds at all
(the permission check rejects it first, because no one is the assigned
worker of an unassigned booking). -/
theorem claim_requires_verified_offering (db : DB) (user : AuthUser) (bid : Nat)
    (b : Booking) (hb : findBooking db bid = some b)
    (_hpend : b.status = BookingStatus.PENDING) (hopen : b.workerId = none) :
    (∀ b2, (acceptBooking db user bid).2 = Except.ok b2 →
        ∃ w, findWorkerByUserId db user.id = some w
          ∧ w.verificationStatus = VerificationStatus.VERIFIED
          ∧ (findActiveService db w.id b.categoryId).isSome = true)
    ∧ (∀ req now b2, req.status = BookingStatus.ACCEPTED →
        (patchBookingStatus db user bid req now).2 ≠ Except.ok b2) := by
  constructor
  · intro b2 h
    unfold acceptBooking at h
    cases hrp : acceptReadPhase db user bid with
    | error e => rw [hrp] at h; cases h
    | ok plan =>
      obtain ⟨hrole, w, b0, ws, hw, hver, hb0, hpend0, hsvc, hplan⟩ :=
        acceptReadPhase_ok hrp
      rw [hb] at hb0
      obtain rfl := Option.some.inj hb0
      exact ⟨w, hw, hver, by rw [hsvc]; rfl⟩
  · intro req now b2 hacc h
    unfold patchBookingStatus at h
    split at h
    · cases h
    next data hdata =>
      obtain ⟨rfl, -, -⟩ := parseUpdateStatus_ok hdata
      rw [hb] at h
      simp only [] at h
      split at h
      · cases h
      · split at h
        · cases h
        next hperm =>
          exfalso
          have hW : isAssignedWorker db b user = false := by
            unfold isAssignedWorker bookingWorker
            rw [hopen]
          exact hperm (by simp [patchPermitted, hacc, hW])

/-- Witness for C4: verified worker 1 (user 10) accepts the open PENDING
booking; the theorem yields their verification and active offering. -/
theorem claim_requires_verified_offering_witness :
    findBooking (dbWith bookingOpen) 1 = some bookingOpen
    ∧ bookingOpen.status = BookingStatus.PENDING
    ∧ bookingOpen.workerId = none
    ∧ (acceptBooking (dbWith bookingOpen) workerUser10 1).2
      = Except.ok (applyAccept { booking := bookingOpen, workerRowId := 1, basePrice := 50 }
          bookingOpen)
    ∧ (∃ w, findWorkerByUserId (dbWith bookingOpen) workerUser10.id = some w
        ∧ w.verificationStatus = VerificationStatus.VERIFIED
        ∧ (findActiveService (dbWith bookingOpen) w.id bookingOpen.categoryId).isSome = true) :=
  ⟨by decide, by decide, by decide, by decide,
   (claim_requires_verified_offering (dbWith bookingOpen) workerUser10 1 bookingOpen
     (by decide) (by decide) (by decide)).1
     (applyAccept { booking := bookingOpen, workerRowId := 1, basePrice := 50 } bookingOpen)
     (by decide)⟩

theorem initiatePayment_shape (db : DB) (user : AuthUser)
    (req : InitiatePaymentRequest) (now : Nat) :
    (∃ e, initiatePayment db user req now = (db, Except.error e))
    ∨ ∃ b amt,
        findBooking db req.bookingId = some b
        ∧ b.customerId = user.id
        ∧ b.status = BookingStatus.COMPLETED
        ∧ (∀ p0, findPayment db b.id = some p0 → p0.status ≠ PaymentStatus.COMPLETED)
        ∧ (initiatePayment db user req now).1
            = (upsertPayment db b.id amt req.method
                (if req.method = PaymentMethod.CASH
                 then PaymentStatus.COMPLETED else PaymentStatus.PROCESSING)
                (if req.method = PaymentMethod.CASH then some now else none)).1
        ∧ ((initiatePayment db user req now).2 = Except.error ApiError.phoneRequired
            ∨ (initiatePayment db user req now).2
                = Except.ok (upsertPayment db b.id amt req.method
                    (if req.method = PaymentMethod.CASH
                     then PaymentStatus.COMPLETED else PaymentStatus.PROCESSING)
                    (if req.method = PaymentMethod.CASH then some now else none)).2) := by
  cases hb : findBooking db req.bookingId with
  | none => left; exact ⟨ApiError.notFound, by unfold initiatePayment; rw [hb]⟩
  | some booking =>
    by_cases hcust : booking.customerId ≠ user.id
    · left
      refine ⟨ApiError.forbidden, ?_⟩
      unfold initiatePayment
      rw [hb]
      simp only []
      rw [if_pos hcust]
    · by_cases hst : booking.status ≠ BookingStatus.COMPLETED
      · left
        refine ⟨ApiError.notCompleted, ?_⟩
        unfold initiatePayment
        rw [hb]
        simp only []
        rw [if_neg hcust, if_pos hst]
      · cases hpaid : (match findPayment db booking.id with
            | some p => p.status == PaymentStatus.COMPLETED
            | none => false) with
        | true =>
          left
          refine ⟨ApiError.alreadyPaid, ?_⟩
          unfold initiatePayment
          rw [hb]
          simp only []
          rw [if_neg hcust, if_neg hst, if_pos hpaid]
        | false =>
          cases hamt : jsOrNum booking.finalPrice booking.estimatedPrice with
          | none =>
            left
            refine ⟨ApiError.noPrice, ?_⟩
            unfold initiatePayment
            rw [hb]
            simp only []
            rw [if_neg hcust, if_neg hst, if_neg (by simp [hpaid]), hamt]
          | some amt =>
            by_cases hz : amt = 0
            · left
              refine ⟨ApiError.noPrice, ?_⟩
              unfold initiatePayment
              rw [hb]
              simp only []
              rw [if_neg hcust, if_neg hst, if_neg (by simp [hpaid]), hamt]
              simp only []
              rw [if_pos hz]
            · right
              refine ⟨booking, amt, rfl, not_not.mp hcust, not_not.mp hst, ?_, ?_, ?_⟩
              · intro p0 hp0
                rw [hp0] at hpaid
                simpa using hpaid
              · unfold initiatePayment
                rw [hb]
                simp only []
                rw [if_neg hcust, if_neg hst, if_neg (by simp [hpaid]), hamt]
                simp only []
                rw [if_neg hz]
                by_cases hcash : req.method = PaymentMethod.CASH
                · rw [if_pos hcash]
                · rw [if_neg hcash]
                  cases req.phone <;> rfl
              · by_cases hcash : req.method = PaymentMethod.CASH
                · right
                  unfold initiatePayment
                  rw [hb]
                  simp only []
                  rw [if_neg hcust, if_neg hst, if_neg (by simp [hpaid]), hamt]
                  simp only []
                  rw [if_neg hz, if_pos hcash]
                · cases hph : req.phone with
                  | none =>
                    left
                    unfold initiatePayment
                    rw [hb]
                    simp only []
                    rw [if_neg hcust, if_neg hst, if_neg (by simp [hpaid]), hamt]
                    simp only []
                    rw [if_neg hz, if_neg hcash, hph]
                  | some ph =>
                    right
                    unfold initiatePayment
                    rw [hb]
                    simp only []
                    rw [if_neg hcust, if_neg hst, if_neg (by simp [hpaid]), hamt]
                    simp only []
                    rw [if_neg hz, if_neg hcash, hph]

/-- C8: payment initiation succeeds only when the booking is COMPLETED and
no COMPLETED payment exists for it; on success a CASH payment is recorded
with status COMPLETED and paidAt set to now, while a mobile-money payment
(any non-CASH method) is recorded with status PROCESSING and paidAt null. -/
theorem payment_initiation_spec (db : DB) (user : AuthUser)
    (req : InitiatePaymentRequest) (now : Nat) :
    (∀ p, (initiatePayment db user req now).2 = Except.ok p →
        ∃ b, findBooking db req.bookingId = some b
          ∧ b.status = BookingStatus.COMPLETED
          ∧ ∀ p0, findPayment db b.id = some p0 → p0.status ≠ PaymentStatus.COMPLETED)
    ∧ (∀ p, (initiatePayment db user req now).2 = Except.ok p →
        req.method = PaymentMethod.CASH →
        p.status = PaymentStatus.COMPLETED ∧ p.paidAt = some now
          ∧ findPayment (initiatePayment db user req now).1 p.bookingId = some p)
    ∧ (∀ p, (initiatePayment db user req now).2 = Except.ok p →
        req.method ≠ PaymentMethod.CASH →
        p.status = PaymentStatus.PROCESSING ∧ p.paidAt = none
          ∧ findPayment (initiatePayment db user req now).1 p.bookingId = some p) := by
  have hshape := initiatePayment_shape db user req now
  refine ⟨?_, ?_, ?_⟩
  · intro p h
    rcases hshape with ⟨e, he⟩ | ⟨b, amt, hb, hcust, hst, hguard, hdb, hres⟩
    · rw [he] at h; cases h
    · exact ⟨b, hb, hst, hguard⟩
  · intro p h hcash
    rcases hshape with ⟨e, he⟩ | ⟨b, amt, hb, hcust, hst, hguard, hdb, hres⟩
    · rw [he] at h; cases h
    · rcases hres with hres | hres
      · rw [hres] at h; cases h
      · rw [hres] at h
        obtain rfl := Except.ok.inj h
        obtain ⟨hfind, hstatus, hpaid, hbid⟩ := upsertPayment_spec db b.id amt req.method
          (if req.method = PaymentMethod.CASH
           then PaymentStatus.COMPLETED else PaymentStatus.PROCESSING)
          (if req.method = PaymentMethod.CASH then some now else none)
        refine ⟨by rw [hstatus, if_pos hcash], by rw [hpaid, if_pos hcash], ?_⟩
        rw [hdb, hbid]
        exact hfind
  · intro p h hcash
    rcases hshape with ⟨e, he⟩ | ⟨b, amt, hb, hcust, hst, hguard, hdb, hres⟩
    · rw [he] at h; cases h
    · rcases hres with hres | hres
      · rw [hres] at h; cases h
      · rw [hres] at h
        obtain rfl := Except.ok.inj h
        obtain ⟨hfind, hstatus, hpaid, hbid⟩ := upsertPayment_spec db b.id amt req.method
          (if req.method = PaymentMethod.CASH
           then PaymentStatus.COMPLETED else PaymentStatus.PROCESSING)
          (if req.method = PaymentMethod.CASH then some now else none)
        refine ⟨by rw [hstatus, if_neg hcash], by rw [hpaid, if_neg hcash], ?_⟩
        rw [hdb, hbid]
        exact hfind

/-- Witness for C8: customer 5 pays cash for the COMPLETED booking; a CASH
payment with status COMPLETED and paidAt = 42 is recorded. -/
theorem payment_initiation_spec_witness :
    (initiatePayment (dbWith bookingCompleted) customer5 cashReq 42).2
      = Except.ok cashPaymentRow
    ∧ cashPaymentRow.status = PaymentStatus.COMPLETED
      ∧ cashPaymentRow.paidAt = some 42
      ∧ findPayment (initiatePayment (dbWith bookingCompleted) customer5 cashReq 42).1
          cashPaymentRow.bookingId
        = some cashPaymentRow :=
  ⟨by decide,
   (payment_initiation_spec (dbWith bookingCompleted) customer5 cashReq 42).2.1
     cashPaymentRow (by decide) rfl⟩

theorem transitionAllowed_terminal {st : BookingStatus}
    (h : st = BookingStatus.COMPLETED ∨ st = BookingStatus.CANCELLED)
    (tgt : BookingStatus) : transitionAllowed st tgt = false := by
  rcases h with h | h <;> rw [h] <;> rfl

theorem findBooking_append {db : DB} {bid : Nat} {b bk : Booking}
    (hb : findBooking db bid = some b) :
    findBooking { db with bookings := db.bookings ++ [bk] } bid = some b := by
  unfold findBooking at hb ⊢
  rw [List.find?_append, hb]
  rfl

theorem findBooking_congr {db db2 : DB} (h : db2.bookings = db.bookings) (bid : Nat) :
    findBooking db2 bid = findBooking db bid := by
  unfold findBooking
  rw [h]

/-- C2 (amended): a booking in a terminal status (COMPLETED or CANCELLED)
is never changed by the create, status-update, accept or payment endpoints:
its status and workerId survive any operation — except that the admin
cancel endpoint, whose update is unconditional, can still flip a COMPLETED
booking to CANCELLED (leaving workerId unchanged).  In particular a
CANCELLED booking never changes at all. -/
theorem terminal_booking_frozen (db : DB) (op : Op) (bid : Nat) (b : Booking)
    (hb : findBooking db bid = some b)
    (hterm : b.status = BookingStatus.COMPLETED ∨ b.status = BookingStatus.CANCELLED) :
    ∃ b2, findBooking (applyOp db op) bid = some b2
      ∧ b2.workerId = b.workerId
      ∧ (b2.status = b.status
          ∨ (op = Op.adminCancel bid ∧ b2.status = BookingStatus.CANCELLED)) := by
  cases op with
  | create u r i n =>
    rcases create_shape db u r i n with hsh | ⟨bk, hst, hwid, hsh⟩
    · refine ⟨b, ?_, rfl, Or.inl rfl⟩
      show findBooking (createBooking db u r i n).1 bid = some b
      rw [hsh]
      exact hb
    · refine ⟨b, ?_, rfl, Or.inl rfl⟩
      show findBooking (createBooking db u r i n).1 bid = some b
      rw [hsh]
      exact findBooking_append hb
  | patchStatus u bid2 r n =>
    rcases patch_shape db u bid2 r n with hsh
      | ⟨data, booking, nw, hparse, hb2, hpair, hperm, hnw, hsh⟩
    · refine ⟨b, ?_, rfl, Or.inl rfl⟩
      show findBooking (patchBookingStatus db u bid2 r n).1 bid = some b
      rw [hsh]
      exact hb
    · have hbid2 : booking.id = bid2 := findBooking_some_id hb2
      by_cases he : bid = bid2
      · subst he
        rw [hb] at hb2
        obtain rfl := Option.some.inj hb2
        rw [transitionAllowed_terminal hterm] at hpair
        cases hpair
      · refine ⟨b, ?_, rfl, Or.inl rfl⟩
        show findBooking (patchBookingStatus db u bid2 r n).1 bid = some b
        rw [hsh, findBooking_setBooking_ne (applyPatch_id data nw n)
          (by rw [hbid2]; exact he)]
        exact hb
  | accept u bid2 =>
    rcases accept_shape db u bid2 with hsh | ⟨plan, hplan, hsh⟩
    · refine ⟨b, ?_, rfl, Or.inl rfl⟩
      show findBooking (acceptBooking db u bid2).1 bid = some b
      rw [hsh]
      exact hb
    · obtain ⟨hrole, w, b0, ws, hw, hver, hb0, hpend0, hsvc, hplan2⟩ :=
        acceptReadPhase_ok hplan
      by_cases he : bid = bid2
      · subst he
        rw [hb] at hb0
        obtain rfl := Option.some.inj hb0
        rcases hterm with ht | ht <;> rw [ht] at hpend0 <;> cases hpend0
      · refine ⟨b, ?_, rfl, Or.inl rfl⟩
        show findBooking (acceptBooking db u bid2).1 bid = some b
        have hb0id : b0.id = bid2 := findBooking_some_id hb0
        rw [hsh, hplan2]
        rw [findBooking_setBooking_ne (applyAccept_id _) (by simp [hb0id]; exact he)]
        exact hb
  | adminCancel bid2 =>
    cases hfind : findBooking db bid2 with
    | none =>
      refine ⟨b, ?_, rfl, Or.inl rfl⟩
      show findBooking (adminCancelBooking db bid2).1 bid = some b
      unfold adminCancelBooking
      rw [hfind]
      exact hb
    | some bk =>
      by_cases he : bid = bid2
      · subst he
        refine ⟨applyAdminCancel b, ?_, rfl, Or.inr ⟨rfl, rfl⟩⟩
        show findBooking (adminCancelBooking db bid).1 bid = some (applyAdminCancel b)
        unfold adminCancelBooking
        rw [hfind]
        exact findBooking_setBooking_self applyAdminCancel_id hb
      · refine ⟨b, ?_, rfl, Or.inl rfl⟩
        show findBooking (adminCancelBooking db bid2).1 bid = some b
        unfold adminCancelBooking
        rw [hfind]
        exact (findBooking_setBooking_ne applyAdminCancel_id he).trans hb
  | payInitiate u r n =>
    refine ⟨b, ?_, rfl, Or.inl rfl⟩
    show findBooking (initiatePayment db u r n).1 bid = some b
    rw [findBooking_congr (bookings_initiatePayment db u r n) bid]
    exact hb

/-- Witness for C2: the COMPLETED booking survives a PATCH attempt to
ACCEPTED untouched. -/
theorem terminal_booking_frozen_witness :
    findBooking (dbWith bookingCompleted) 1 = some bookingCompleted
    ∧ (bookingCompleted.status = BookingStatus.COMPLETED
        ∨ bookingCompleted.status = BookingStatus.CANCELLED)
    ∧ ∃ b2, findBooking (applyOp (dbWith bookingCompleted)
          (Op.patchStatus workerUser10 1
            { status := BookingStatus.ACCEPTED, finalPrice := none } 7)) 1 = some b2
        ∧ b2.workerId = bookingCompleted.workerId
        ∧ (b2.status = bookingCompleted.status
            ∨ (Op.patchStatus workerUser10 1
                { status := BookingStatus.ACCEPTED, finalPrice := none } 7
                  = Op.adminCancel 1
              ∧ b2.status = BookingStatus.CANCELLED)) :=
  ⟨by decide, by decide,
   terminal_booking_frozen (dbWith bookingCompleted)
     (Op.patchStatus workerUser10 1
       { status := BookingStatus.ACCEPTED, finalPrice := none } 7) 1 bookingCompleted
     (by decide) (by decide)⟩

/-- Counterexample for C2 as frozen: the admin cancel endpoint succeeds on
a COMPLETED (terminal) booking and moves it to CANCELLED. -/
theorem admin_cancel_escapes_terminal :
    bookingCompleted.status = BookingStatus.COMPLETED
    ∧ findBooking (applyOp (dbWith bookingCompleted) (Op.adminCancel 1)) 1
      = some (applyAdminCancel bookingCompleted)
    ∧ (applyAdminCancel bookingCompleted).status = BookingStatus.CANCELLED
    ∧ BookingStatus.CANCELLED ≠ BookingStatus.COMPLETED := by
  decide

/-- C5 (amended): (1) once a booking's workerId is non-null, the only
operation that can change it is the accept endpoint hitting that booking
while it is still PENDING (the pre-assigned-but-unclaimed case, which the
accept endpoint's status-only guard lets through); under any other
operation — and always once the booking has left PENDING — the assignment
is immutable.  (2) A booking with workerId null is PENDING or CANCELLED
(not only PENDING as claimed: cancelling an unclaimed booking leaves
workerId null), and this invariant is preserved by every endpoint. -/
theorem worker_assignment_evolution :
    (∀ db op bid b w, findBooking db bid = some b → b.workerId = some w →
        (b.status ≠ BookingStatus.PENDING ∨ ∀ u, op ≠ Op.accept u bid) →
        ∃ b2, findBooking (applyOp db op) bid = some b2 ∧ b2.workerId = some w)
    ∧ (∀ db op, nullWorkerInv db → nullWorkerInv (applyOp db op)) := by
  constructor
  · intro db op bid b w hb hw hfree
    cases op with
    | create u r i n =>
      rcases create_shape db u r i n with hsh | ⟨bk, hst, hwid, hsh⟩
      · refine ⟨b, ?_, hw⟩
        show findBooking (createBooking db u r i n).1 bid = some b
        rw [hsh]
        exact hb
      · refine ⟨b, ?_, hw⟩
        show findBooking (createBooking db u r i n).1 bid = some b
        rw [hsh]
        exact findBooking_append hb
    | patchStatus u bid2 r n =>
      rcases patch_shape db u bid2 r n with hsh
        | ⟨data, booking, nw, hparse, hb2, hpair, hperm, hnw, hsh⟩
      · refine ⟨b, ?_, hw⟩
        show findBooking (patchBookingStatus db u bid2 r n).1 bid = some b
        rw [hsh]
        exact hb
      · have hbid2 : booking.id = bid2 := findBooking_some_id hb2
        by_cases he : bid = bid2
        · subst he
          rw [hb] at hb2
          obtain rfl := Option.some.inj hb2
          rcases hnw with rfl | ⟨hacc, hnone⟩
          · refine ⟨applyPatch data none n b, ?_, ?_⟩
            · show findBooking (patchBookingStatus db u bid r n).1 bid
                = some (applyPatch data none n b)
              rw [hsh, hbid2]
              exact findBooking_setBooking_self (applyPatch_id data none n) hb
            · show (applyPatch data none n b).workerId = some w
              simpa [applyPatch] using hw
          · rw [hnone] at hw
            cases hw
        · refine ⟨b, ?_, hw⟩
          show findBooking (patchBookingStatus db u bid2 r n).1 bid = some b
          rw [hsh, findBooking_setBooking_ne (applyPatch_id data nw n)
            (by rw [hbid2]; exact he)]
          exact hb
    | accept u bid2 =>
      rcases accept_shape db u bid2 with hsh | ⟨plan, hplan, hsh⟩
      · refine ⟨b, ?_, hw⟩
        show findBooking (acceptBooking db u bid2).1 bid = some b
        rw [hsh]
        exact hb
      · obtain ⟨hrole, w0, b0, ws, hw0, hver, hb0, hpend0, hsvc, hplan2⟩ :=
          acceptReadPhase_ok hplan
        by_cases he : bid = bid2
        · subst he
          rw [hb] at hb0
          obtain rfl := Option.some.inj hb0
          rcases hfree with hne | hop
          · exact absurd hpend0 hne
          · exact absurd rfl (hop u)
        · refine ⟨b, ?_, hw⟩
          show findBooking (acceptBooking db u bid2).1 bid = some b
          have hb0id : b0.id = bid2 := findBooking_some_id hb0
          rw [hsh, hplan2]
          rw [findBooking_setBooking_ne (applyAccept_id _) (by simp [hb0id]; exact he)]
          exact hb
    | adminCancel bid2 =>
      cases hfind : findBooking db bid2 with
      | none =>
        refine ⟨b, ?_, hw⟩
        show findBooking (adminCancelBooking db bid2).1 bid = some b
        unfold adminCancelBooking
        rw [hfind]
        exact hb
      | some bk =>
        by_cases he : bid = bid2
        · subst he
          refine ⟨applyAdminCancel b, ?_, hw⟩
          show findBooking (adminCancelBooking db bid).1 bid = some (applyAdminCancel b)
          unfold adminCancelBooking
          rw [hfind]
          exact findBooking_setBooking_self applyAdminCancel_id hb
        · refine ⟨b, ?_, hw⟩
          show findBooking (adminCancelBooking db bid2).1 bid = some b
          unfold adminCancelBooking
          rw [hfind]
          exact (findBooking_setBooking_ne applyAdminCancel_id he).trans hb
    | payInitiate u r n =>
      refine ⟨b, ?_, hw⟩
      show findBooking (initiatePayment db u r n).1 bid = some b
      rw [findBooking_congr (bookings_initiatePayment db u r n) bid]
      exact hb
  · intro db op hinv
    cases op with
    | create u r i n =>
      rcases create_shape db u r i n with hsh | ⟨bk, hst, hwid, hsh⟩
      · show nullWorkerInv (createBooking db u r i n).1
        rw [hsh]
        exact hinv
      · show nullWorkerInv (createBooking db u r i n).1
        rw [hsh]
        exact nullWorkerInv_append hinv (Or.inl hst)
    | patchStatus u bid2 r n =>
      rcases patch_shape db u bid2 r n with hsh
        | ⟨data, booking, nw, hparse, hb2, hpair, hperm, hnw, hsh⟩
      · show nullWorkerInv (patchBookingStatus db u bid2 r n).1
        rw [hsh]
        exact hinv
      · have hbid2 : booking.id = bid2 := findBooking_some_id hb2
        show nullWorkerInv (patchBookingStatus db u bid2 r n).1
        rw [hsh]
        refine nullWorkerInv_setBooking (applyPatch_id data nw n) hinv ?_
        intro x hx hwn
        have hxb : x = booking := by
          rw [hbid2, hb2] at hx
          exact (Option.some.inj hx).symm
        subst hxb
        cases nw with
        | some wid => simp [applyPatch] at hwn
        | none =>
          have hwb : x.workerId = none := by simpa [applyPatch] using hwn
          have hW : isAssignedWorker db x u = false := by
            unfold isAssignedWorker bookingWorker
            rw [hwb]
          by_cases hc : data.status = BookingStatus.CANCELLED
          · right
            simp [applyPatch, hc]
          · exfalso
            unfold patchPermitted at hperm
            rw [if_neg hc, hW] at hperm
            cases hperm
    | accept u bid2 =>
      rcases accept_shape db u bid2 with hsh | ⟨plan, hplan, hsh⟩
      · show nullWorkerInv (acceptBooking db u bid2).1
        rw [hsh]
        exact hinv
      · show nullWorkerInv (acceptBooking db u bid2).1
        rw [hsh]
        refine nullWorkerInv_setBooking (applyAccept_id _) hinv ?_
        intro x hx hwn
        simp [applyAccept] at hwn
    | adminCancel bid2 =>
      cases hfind : findBooking db bid2 with
      | none =>
        show nullWorkerInv (adminCancelBooking db bid2).1
        unfold adminCancelBooking
        rw [hfind]
        exact hinv
      | some bk =>
        show nullWorkerInv (adminCancelBooking db bid2).1
        unfold adminCancelBooking
        rw [hfind]
        exact nullWorkerInv_setBooking applyAdminCancel_id hinv (fun x hx hwn => Or.inr rfl)
    | payInitiate u r n =>
      exact nullWorkerInv_congr (bookings_initiatePayment db u r n) hinv

/-- Witness for C5: part 1 at a patch on an ACCEPTED booking assigned to
worker 1 (assignment survives), part 2 at the admin cancel of the open
PENDING booking (the null-workerId invariant is preserved). -/
theorem worker_assignment_evolution_witness :
    findBooking (dbWith bookingAccepted) 1 = some bookingAccepted
    ∧ bookingAccepted.workerId = some 1
    ∧ bookingAccepted.status ≠ BookingStatus.PENDING
    ∧ (∃ b2, findBooking (applyOp (dbWith bookingAccepted)
          (Op.patchStatus workerUser10 1
            { status := BookingStatus.WORKER_EN_ROUTE, finalPrice := none } 7)) 1
          = some b2 ∧ b2.workerId = some 1)
    ∧ nullWorkerInv (dbWith bookingOpen)
    ∧ nullWorkerInv (applyOp (dbWith bookingOpen) (Op.adminCancel 1)) :=
  ⟨by decide, by decide, by decide,
   worker_assignment_evolution.1 (dbWith bookingAccepted)
     (Op.patchStatus workerUser10 1
       { status := BookingStatus.WORKER_EN_ROUTE, finalPrice := none } 7) 1
     bookingAccepted 1 (by decide) (by decide) (Or.inl (by decide)),
   by unfold nullWorkerInv; decide,
   worker_assignment_evolution.2 (dbWith bookingOpen) (Op.adminCancel 1)
     (by unfold nullWorkerInv; decide)⟩

/-- Counterexample for C5 as frozen: booking 1 is PENDING and already
assigned to worker 1, yet verified worker 2 (user 20) succeeds through the
accept endpoint and workerId changes from 1 to 2 — an assigned workerId is
not immutable. -/
theorem accept_overwrites_assigned_worker :
    bookingPreassigned.workerId = some 1
    ∧ (acceptBooking (dbWith bookingPreassigned) workerUser20 1).2
      = Except.ok (applyAccept planW2 bookingPreassigned)
    ∧ findBooking (acceptBooking (dbWith bookingPreassigned) workerUser20 1).1 1
      = some (applyAccept planW2 bookingPreassigned)
    ∧ (applyAccept planW2 bookingPreassigned).workerId = some 2
    ∧ some 2 ≠ (some 1 : Option Nat) := by
  decide

/-- C3 evaluated at the failing schedule: the accept handler's validation
(read phase) and its update (write phase) are separated by awaited calls, so
two requests can both pass the `status === PENDING` check before either
writes, and the update is keyed on the id alone — no condition on
`status = PENDING AND workerId IS NULL`.  Under the interleaving
read(W1), read(W2), write(W1), write(W2) on one open PENDING booking, both
verified workers' requests succeed (neither fails NotAvailable) and the
final workerId is the second writer's: the first winner is silently
overwritten instead of the loser failing. -/
theorem accept_race_lost_update :
    acceptReadPhase (dbWith bookingOpen) workerUser10 1 = Except.ok planOpenW1
    ∧ acceptReadPhase (dbWith bookingOpen) workerUser20 1 = Except.ok planOpenW2
    ∧ (findBooking (acceptWritePhase (acceptWritePhase (dbWith bookingOpen) planOpenW1)
          planOpenW2) 1).map Booking.workerId = some (some 2)
    ∧ (findBooking (acceptWritePhase (acceptWritePhase (dbWith bookingOpen) planOpenW1)
          planOpenW2) 1).map Booking.status = some BookingStatus.ACCEPTED
    ∧ some (some 2) ≠ (some (some 1) : Option (Option Nat)) := by
  decide

end QuickServe
